import Mathlib

/-!
Verification of the chat-transport file bridge in Backend/TelegramBridge.py.

The Python functions are shallowly embedded as executable Lean definitions:
strings are Lean strings manipulated through structurally recursive helpers
on their character lists (mirroring CPython string semantics for the ASCII
inputs the bridge deals with), per-conversation sessions are explicit
records, the polling loop body is a recursion over the batch of update ids
that emits an event trace, and filesystem or network effects are made
explicit (entries carry their metadata, fallible calls are modelled with
Except or with Bool flags saying whether the call raises).
-/

/-! ## Python string primitives, embedded structurally -/

/-- Character list version of Python str.startswith. -/
def startsWithL (hay pre : List Char) : Bool :=
  match hay, pre with
  | _, [] => true
  | [], _ :: _ => false
  | a :: as, b :: bs => a == b && startsWithL as bs

/-- Character list version of the Python substring test (needle in hay). -/
def containsL (hay needle : List Char) : Bool :=
  match hay with
  | [] => needle.isEmpty
  | _ :: rest => startsWithL hay needle || containsL rest needle

/-- Python str.startswith on strings. -/
def strStartsWith (s pre : String) : Bool := startsWithL s.data pre.data

/-- Python substring membership (needle in hay) on strings. -/
def strContains (hay needle : String) : Bool := containsL hay.data needle.data

/-- Whitespace characters stripped by Python str.strip for the inputs the
bridge sees. -/
def pySpace (c : Char) : Bool :=
  c == ' ' || c == '\t' || c == '\n' || c == '\r' || c == '\x0b' || c == '\x0c'

/-- Python str.strip with no argument. -/
def pyStrip (s : String) : String :=
  (((s.data.dropWhile pySpace).reverse.dropWhile pySpace).reverse).asString

/-- Python str.strip with a single-character argument: that character is
removed from both ends. -/
def pyStripChar (s : String) (c : Char) : String :=
  (((s.data.dropWhile (· == c)).reverse.dropWhile (· == c)).reverse).asString

/-- Python str.lower, which on the ASCII text handled by the bridge agrees
with mapping Char.toLower over the characters. -/
def pyLower (s : String) : String := (s.data.map Char.toLower).asString

/-- Python string slicing s[n:]. -/
def strDrop (s : String) (n : Nat) : String := (s.data.drop n).asString

/-- Python any(k in t for k in keys). -/
def anyKey (t : String) (keys : List String) : Bool :=
  keys.any (fun k => strContains t k)

/-- The text after the second space character, used to embed
raw.split(" ", 2) followed by taking parts[2]: the result is empty when raw
has fewer than two spaces. -/
def afterSecondSpaceL (l : List Char) (seen : Nat) : String :=
  match l with
  | [] => ""
  | c :: rest =>
      if c == ' ' then
        if seen == 1 then rest.asString else afterSecondSpaceL rest (seen + 1)
      else afterSecondSpaceL rest seen

/-- Payload of raw.split(" ", 2) index 2 (empty when absent). -/
def afterSecondSpace (s : String) : String := afterSecondSpaceL s.data 0

/-! ## Decimal numerals

The registry stores short ids produced by the Python str() of a counter,
embedded as Nat.repr. The proofs need that decimal numerals are nonempty
and injective, established here through a digit valuation round trip. -/

/-- Most significant digit first decimal digit list of a natural number. -/
def natDigits (n : Nat) : List Char :=
  if n < 10 then [Nat.digitChar n]
  else natDigits (n / 10) ++ [Nat.digitChar (n % 10)]
decreasing_by
  exact Nat.div_lt_self (by omega) (by omega)

/-- Valuation reading a decimal digit list back into a number. -/
def digitsVal (l : List Char) : Nat :=
  l.foldl (fun acc c => acc * 10 + (c.toNat - 48)) 0

/-! ## Conversation sessions and the path registry
Embeds the session dictionary created by get_or_create_chat_session and
the function register_path (TelegramBridge.py lines 490-516). The two
dictionaries are association lists where an update is a cons that shadows
older entries, exactly the visible behaviour of the Python dict. -/

/-- Per-conversation browse session state. -/
structure ChatSession where
  id_to_path : List (String × String)
  path_to_id : List (String × String)
  next_id : Nat
  file_filter : String
  sort_mode : String
  current_sid : String
deriving DecidableEq

/-- The session freshly created on first interaction. -/
def freshSession : ChatSession :=
  { id_to_path := [], path_to_id := [], next_id := 1,
    file_filter := "all", sort_mode := "recent", current_sid := "" }

/-- Python dict.get followed by a truthiness test: an empty string stored
under the key behaves like a missing key. -/
def truthyLookup (m : List (String × String)) (k : String) : Option String :=
  match m.lookup k with
  | some v => if v = "" then none else some v
  | none => none

/-- Embedding of register_path: return the existing id of an already
registered resolved path, otherwise bind a fresh sequential id in both
directions. -/
def register_path (s : ChatSession) (pathText : String) : String × ChatSession :=
  match truthyLookup s.path_to_id pathText with
  | some existing => (existing, s)
  | none =>
      let sid := Nat.repr s.next_id
      (sid, { s with
        next_id := s.next_id + 1,
        id_to_path := (sid, pathText) :: s.id_to_path,
        path_to_id := (pathText, sid) :: s.path_to_id })

/-- State reachable by the registry: every stored short id is the numeral of
a counter value below next_id, and the path to id direction never maps two
paths to one id. -/
def RegInv (s : ChatSession) : Prop :=
  (∀ pr ∈ s.path_to_id, ∃ k, k < s.next_id ∧ pr.2 = Nat.repr k)
  ∧ (∀ pr ∈ s.id_to_path, ∃ k, k < s.next_id ∧ pr.1 = Nat.repr k)
  ∧ (∀ pr qr, pr ∈ s.path_to_id → qr ∈ s.path_to_id → pr.2 = qr.2 → pr.1 = qr.1)

/-- Registering a path and keeping only the updated session. -/
def regStep (s : ChatSession) (pathText : String) : ChatSession :=
  (register_path s pathText).2

/-! ## Natural language filter parsing and browse preferences
Embeds parse_file_filter (lines 586-602), the filter coercion of the flt
callback branch (lines 842-845) and set_browser_preferences (530-536). -/

/-- Embedding of parse_file_filter. -/
def parse_file_filter (text : String) : String :=
  let t := pyLower text
  if anyKey t ["photo", "image", "pic", "png", "jpg", "jpeg", "webp", "gif"] then "photo"
  else if anyKey t ["video", "mp4", "mov", "mkv", "webm"] then "video"
  else if anyKey t ["audio", "voice", "song", "mp3", "wav", "flac", "ogg"] then "audio"
  else if strContains t "pdf" then "pdf"
  else if anyKey t ["code", "python", ".py", "js", "ts", "java", "cpp", "c#"] then "code"
  else if anyKey t ["text", "txt", "note", "readme", "log", "md"] then "text"
  else if anyKey t ["doc", "document", "ppt", "xls", "csv", "office"] then "doc"
  else "all"

/-- The nine documented filter values, from the guard of the flt callback. -/
def ALLOWED_FILTERS : List String :=
  ["all", "photo", "video", "audio", "pdf", "code", "text", "doc", "other"]

/-- The values parse_file_filter can produce. -/
def PARSER_FILTERS : List String :=
  ["all", "photo", "video", "audio", "pdf", "code", "text", "doc"]

/-- Coercion applied by the flt callback branch: an unknown value is
replaced by all before it is stored. -/
def normalize_flt_value (v : String) : String :=
  if ALLOWED_FILTERS.contains v then v else "all"

/-! ## Inbound text routing
Embeds handle_telegram_text (lines 963-1082). Filesystem probes and the
two pure but regex-based filename helpers are abstracted into an oracle so
the routing decisions stay exactly those of the source. -/

/-- Oracle for the filesystem and the filename-extraction helpers consulted
by the send me branch. -/
structure FsOracle where
  pathExistsIsFile : String → Bool
  resolvePath : String → String
  extractFilenameHint : String → String
  findFileByName : String → Option String

/-- A trivial oracle on which every filesystem probe fails. -/
def noFs : FsOracle :=
  { pathExistsIsFile := fun _ => false,
    resolvePath := fun s => s,
    extractFilenameHint := fun _ => "",
    findFileByName := fun _ => none }

/-- Replies the text handler can produce, named after the call it issues. -/
inductive Reply
  | browserRoots
  | screenshotMsg
  | voiceNote (payload : String)
  | fileSend (path : String)
  | folderJob (path : String)
  | startLink
  | helpText
  | pixie (text : String)
deriving DecidableEq

/-- Outcome of routing one inbound text: the preference writes performed by
set_browser_preferences plus the reply issued. -/
structure RouterResult where
  setFilter : Option String
  setSort : Option String
  reply : Reply
deriving DecidableEq

/-- Result with no preference writes. -/
def replyOnly (r : Reply) : RouterResult :=
  { setFilter := none, setSort := none, reply := r }

/-- Extension part of the final path component, embedding the pathlib
suffix read by the send me branch: empty when the final component has no
dot after its first character or nothing follows its last dot. -/
def nameSuffix (s : String) : String :=
  let comp := ((s.data.reverse.takeWhile (fun c => !(c == '/' || c == '\\'))).reverse)
  match comp with
  | [] => ""
  | _ :: rest =>
      let ext := (rest.reverse.takeWhile (· != '.')).reverse
      if rest.contains '.' && !ext.isEmpty then ('.' :: ext).asString
      else ""

/-- The file the send me branch resolves, if any: a path-looking candidate
that exists as a file, else a filename hint located by the search helper. -/
def sendMeResolve (fs : FsOracle) (raw lower : String) : Option String :=
  let candidate :=
    if strStartsWith lower "send me " then pyStrip (strDrop raw 8)
    else pyStrip (strDrop raw 5)
  let cc := pyStripChar (pyStripChar (pyStrip candidate) '"') '\''
  if (strContains cc "\\" || strContains cc "/" || strContains cc ":"
      || !(nameSuffix cc == "")) && fs.pathExistsIsFile cc then
    some (fs.resolvePath cc)
  else
    let hint := fs.extractFilenameHint cc
    if hint == "" then none
    else fs.findFileByName hint

/-- Embedding of handle_telegram_text as a pure routing function. -/
def handle_telegram_text (fs : FsOracle) (text : String) : RouterResult :=
  let raw := pyStrip text
  let lower := pyLower raw
  if strStartsWith lower "/browse " then
    { setFilter := some (parse_file_filter (pyStrip (strDrop raw 8))),
      setSort := some "recent", reply := .browserRoots }
  else if anyKey lower ["browse", "list files", "show files", "file browser"]
      && anyKey lower ["photo", "video", "code", "text", "pdf", "audio", "doc"] then
    { setFilter := some (parse_file_filter raw),
      setSort := some (if strContains lower "recent" || strContains lower "latest"
                       then "recent" else "name"),
      reply := .browserRoots }
  else if (["browse", "browse files", "file browser", "list files",
            "list folders", "show files", "/browse"] : List String).contains lower then
    { setFilter := some (parse_file_filter raw),
      setSort := some (if strContains lower "recent" || strContains lower "latest"
                       then "recent" else "recent"),
      reply := .browserRoots }
  else if (["send screenshot", "take screenshot", "send screen",
            "send current screen"] : List String).contains lower then
    replyOnly .screenshotMsg
  else if strStartsWith lower "send me screenshot"
      || strStartsWith lower "send screenshot of" then
    replyOnly .screenshotMsg
  else if (strStartsWith lower "send voice " || strStartsWith lower "reply in voice ")
      && !(pyStrip (afterSecondSpace raw) == "") then
    replyOnly (.voiceNote (pyStrip (afterSecondSpace raw)))
  else if strStartsWith lower "send file " then
    replyOnly (.fileSend (pyStrip (strDrop raw 10)))
  else if strStartsWith lower "send me file " then
    replyOnly (.fileSend (pyStrip (strDrop raw 13)))
  else if strStartsWith lower "send folder " then
    replyOnly (.folderJob (pyStrip (strDrop raw 12)))
  else if strStartsWith lower "send me folder " then
    replyOnly (.folderJob (pyStrip (strDrop raw 15)))
  else if (strStartsWith lower "send me " || strStartsWith lower "send ")
      && (sendMeResolve fs raw lower).isSome then
    replyOnly (.fileSend ((sendMeResolve fs raw lower).getD ""))
  else if lower == "/start" then
    replyOnly .startLink
  else if lower == "/help" then
    replyOnly .helpText
  else if strStartsWith lower "/screenshot" then
    replyOnly .screenshotMsg
  else if strStartsWith lower "/sendfile " then
    replyOnly (.fileSend (pyStrip (strDrop text 10)))
  else if strStartsWith lower "/sendfolder " then
    replyOnly (.folderJob (pyStrip (strDrop text 12)))
  else if strStartsWith lower "/voice " then
    replyOnly (.voiceNote (pyStrip (strDrop text 7)))
  else
    replyOnly (.pixie text)

/-- Events that can touch the filter preference of a session: an inbound
text routed by handle_telegram_text, a flt callback, a sort callback. -/
inductive SessionEvent
  | inboundText (t : String)
  | fltCallback (v : String)
  | sortCallback (v : String)

/-- Effect of one event on the stored filter preference. -/
def applyFilterEvent (fs : FsOracle) (filt : String) : SessionEvent → String
  | .inboundText t =>
      match (handle_telegram_text fs t).setFilter with
      | some f => f
      | none => filt
  | .fltCallback v => normalize_flt_value v
  | .sortCallback _ => filt

/-- Filter preference after a sequence of events on a fresh session. -/
def sessionFilterAfter (fs : FsOracle) (events : List SessionEvent) : String :=
  events.foldl (applyFilterEvent fs) "all"

/-! ## Update transport loop
Embeds the inner batch loop of poll_loop (lines 1147-1157) as a recursion
over the batch of update ids that emits the trace of state persists and
handler dispatches in order. -/

/-- Observable actions of the batch loop. -/
inductive PollEvent
  | persistCursor (id : Nat)
  | dispatch (id : Nat)
deriving DecidableEq

/-- Embedding of the for loop over one getUpdates batch: an update at or
past the offset first advances and persists the cursor, then every update
is dispatched inside the failure boundary. Returns the new offset and the
ordered event trace. -/
def processBatch : Nat → List Nat → Nat × List PollEvent
  | offset, [] => (offset, [])
  | offset, uid :: rest =>
      if offset ≤ uid then
        ((processBatch (uid + 1) rest).1,
         PollEvent.persistCursor uid :: PollEvent.dispatch uid
           :: (processBatch (uid + 1) rest).2)
      else
        ((processBatch offset rest).1,
         PollEvent.dispatch uid :: (processBatch offset rest).2)

/-- Cursor values persisted along a trace, in order. -/
def persistedIds (evs : List PollEvent) : List Nat :=
  evs.filterMap fun e =>
    match e with
    | .persistCursor i => some i
    | .dispatch _ => none

/-! ## Durable state
Embeds load_state (lines 67-80). The content of the state file is one of
the shapes the loader distinguishes; the body that can raise is an Except
value and the surrounding try, except is the total wrapper. -/

/-- A JSON value in the last_update_id slot, seen through int(): either a
value int() accepts or one on which int() raises. -/
inductive JsonNumVal
  | intLike (n : Int)
  | notIntLike

/-- Shapes of the persisted state file that load_state distinguishes. -/
inductive StateFile
  | absent
  | unreadable
  | invalidJson
  | jsonNonObject
  | jsonObject (lastUpdateId : Option JsonNumVal) (primaryChatId : Option String)

/-- Record returned by load_state. -/
structure BridgeState where
  last_update_id : Int
  primary_chat_id : String
deriving DecidableEq

/-- The int() conversion of the stored cursor slot, defaulting to 0 when
the key is missing. -/
def parseCursor : Option JsonNumVal → Except String Int
  | none => .ok 0
  | some (.intLike n) => .ok n
  | some .notIntLike => .error "invalid literal for int"

/-- Body of load_state up to the exception boundary: reading or decoding
failures raise, a non-object document and an absent file return the default
record directly. -/
def load_state_attempt (defaultChatId : String) : StateFile → Except String BridgeState
  | .absent => .ok ⟨0, defaultChatId⟩
  | .unreadable => .error "unreadable file"
  | .invalidJson => .error "expecting value"
  | .jsonNonObject => .ok ⟨0, defaultChatId⟩
  | .jsonObject lu pc => do
      let n ← parseCursor lu
      .ok ⟨n, pyStrip (pc.getD defaultChatId)⟩

/-- Embedding of load_state: the body with every raise caught and turned
into the default record. -/
def load_state (defaultChatId : String) (f : StateFile) : BridgeState :=
  match load_state_attempt defaultChatId f with
  | .ok s => s
  | .error _ => ⟨0, defaultChatId⟩

/-! ## Folder listing, filtering, sorting and pagination
Embeds file_group (605-625), matches_filter (649-652), the listing split
of list_folder_entries (662-678) and the pagination and navigation row
logic of browser_keyboard_for_folder (681-754). A directory entry carries
the metadata those functions read. -/

/-- Metadata of one immediate child of a folder. -/
structure FsEntry where
  name : String
  ext : String
  mtime : Nat
  isDir : Bool
deriving DecidableEq

/-- Embedding of file_group on the lowercased extension. -/
def file_group (extRaw : String) : String :=
  let ext := pyLower extRaw
  if (([".jpg", ".jpeg", ".png", ".webp", ".gif", ".bmp", ".tiff"] : List String)).contains ext then "photo"
  else if (([".mp4", ".mov", ".mkv", ".webm", ".avi"] : List String)).contains ext then "video"
  else if (([".mp3", ".wav", ".m4a", ".aac", ".flac", ".ogg", ".opus"] : List String)).contains ext then "audio"
  else if ext == ".pdf" then "pdf"
  else if (([".py", ".js", ".ts", ".tsx", ".jsx", ".java", ".cs", ".cpp", ".c", ".h", ".hpp",
    ".go", ".rs", ".php", ".rb", ".swift", ".kt", ".kts", ".scala", ".sh", ".ps1",
    ".html", ".css", ".scss", ".sql", ".xml", ".yaml", ".yml", ".json", ".toml"] : List String)).contains ext then "code"
  else if (([".txt", ".md", ".rst", ".log", ".ini", ".cfg", ".env"] : List String)).contains ext then "text"
  else if (([".doc", ".docx", ".ppt", ".pptx", ".xls", ".xlsx", ".csv"] : List String)).contains ext then "doc"
  else "other"

/-- Embedding of matches_filter. -/
def matches_filter (e : FsEntry) (file_filter : String) : Bool :=
  if file_filter == "all" then true else file_group e.ext == file_filter

/-- Strict lexicographic order on character lists, the comparison Python
uses between strings. -/
def lexLtCh : List Char → List Char → Bool
  | [], [] => false
  | [], _ :: _ => true
  | _ :: _, [] => false
  | a :: as, b :: bs => if a < b then true else if b < a then false else lexLtCh as bs

/-- Stable insertion of an element before the first strictly greater one,
matching the stability contract of the Python list sort. -/
def insertStable (lt : α → α → Bool) (x : α) : List α → List α
  | [] => [x]
  | y :: ys => if lt y x then y :: insertStable lt x ys else x :: y :: ys

/-- Stable sort by a strict comparison. -/
def sortStable (lt : α → α → Bool) : List α → List α
  | [] => []
  | x :: xs => insertStable lt x (sortStable lt xs)

/-- Case-insensitive ascending name comparison, the name sort key. -/
def nameLt (a b : FsEntry) : Bool := lexLtCh (pyLower a.name).data (pyLower b.name).data

/-- Modification time descending, the recent sort with reverse set. -/
def mtimeGt (a b : FsEntry) : Bool := b.mtime < a.mtime

/-- Embedding of list_folder_entries: split the children into directories
and files, each sorted by lowercased name. -/
def list_folder_entries (entries : List FsEntry) : List FsEntry × List FsEntry :=
  (sortStable nameLt (entries.filter (·.isDir)),
   sortStable nameLt (entries.filter (fun e => !e.isDir)))

/-- Item list of the folder view: files failing the filter dropped, both
halves resorted by the active mode, directories first. -/
def folderItems (entries : List FsEntry) (file_filter sort_mode : String) : List FsEntry :=
  let split := list_folder_entries entries
  let folders := split.1
  let files := (split.2).filter (fun f => matches_filter f file_filter)
  if sort_mode == "recent" then
    sortStable mtimeGt folders ++ sortStable mtimeGt files
  else
    sortStable nameLt folders ++ sortStable nameLt files

/-- The pagination outcome of the folder keyboard: the clamped page, the
page count, the child rows of the displayed page and which navigation
controls the final row holds. -/
structure FolderKeyboard where
  page : Nat
  totalPages : Nat
  childRows : List FsEntry
  hasPrev : Bool
  hasNext : Bool
deriving DecidableEq

/-- The page count as the keyboard computes it, with the Python floor
division of the possibly negative count minus one. -/
def total_pages_of (count : Nat) : Nat :=
  (max ((((count : Int) - 1).fdiv 12) + 1) 1).toNat

/-- The requested page clamped below by 0 and then above by the last
page. -/
def clamped_page (requestedPage : Int) (total_pages : Nat) : Nat :=
  if (total_pages : Int) ≤ max requestedPage 0 then total_pages - 1
  else (max requestedPage 0).toNat

/-- Embedding of the pagination and navigation logic of
browser_keyboard_for_folder on the computed item list: the requested page
is first clamped below by 0 then above by the page count, the displayed
rows are the page slice of size 12, and Prev and Next appear exactly when
a page exists in that direction. -/
def browser_keyboard (items : List FsEntry) (requestedPage : Int) : FolderKeyboard :=
  let page := clamped_page requestedPage (total_pages_of items.length)
  { page := page,
    totalPages := total_pages_of items.length,
    childRows := (items.drop (page * 12)).take 12,
    hasPrev := decide (0 < page),
    hasNext := decide (page < total_pages_of items.length - 1) }

/-! ## Bulk transfer worker
Embeds the walk of zip_folder (lines 184-209). An entry of the walk
carries its size and whether its metadata read or archive write raises. -/

/-- Source size budget of a transfer job. -/
def MAX_ZIP_SOURCE_BYTES : Nat := 350 * 1024 * 1024

/-- Upload ceiling of the transport. -/
def MAX_TELEGRAM_UPLOAD_BYTES : Nat := 50 * 1024 * 1024

/-- One regular file met by the walk. -/
structure ZipEntry where
  size : Nat
  statRaises : Bool
  writeRaises : Bool
deriving DecidableEq

/-- Accounting state of a transfer job. -/
structure ZipJob where
  archived : List ZipEntry
  file_count : Nat
  skipped_count : Nat
  source_bytes : Nat
deriving DecidableEq

/-- Counters before the walk. -/
def zipInit : ZipJob := { archived := [], file_count := 0, skipped_count := 0, source_bytes := 0 }

/-- Embedding of the per-file body of the walk: a failing stat, an entry
that would push the running total over the budget, or a failing write is
counted as skipped and leaves the archive untouched; otherwise the entry
is archived whole and the counters advance. -/
def zip_step (j : ZipJob) (e : ZipEntry) : ZipJob :=
  if e.statRaises then { j with skipped_count := j.skipped_count + 1 }
  else if MAX_ZIP_SOURCE_BYTES < j.source_bytes + e.size then
    { j with skipped_count := j.skipped_count + 1 }
  else if e.writeRaises then { j with skipped_count := j.skipped_count + 1 }
  else
    { j with archived := j.archived ++ [e],
             file_count := j.file_count + 1,
             source_bytes := j.source_bytes + e.size }

/-- Embedding of zip_folder over the files produced by the walk. -/
def zip_folder (entries : List ZipEntry) : ZipJob := entries.foldl zip_step zipInit

/-- Total size of a list of entries. -/
def sumSizes (l : List ZipEntry) : Nat := (l.map (·.size)).sum

/-! ## Direct single file send
Embeds send_file (lines 170-181) up to the hand-off to send_path, which
performs the network upload. -/

/-- Metadata of the resolved path as read by send_file. -/
structure FileMeta where
  onDisk : Bool
  isFile : Bool
  size : Nat
deriving DecidableEq

/-- Outcome of send_file: the three error strings returned to the caller
without any network call, or the hand-off to the uploading send_path. -/
inductive SendFileResult
  | errMissingPath
  | errNotFound
  | errTooLarge
  | sendOverNetwork
deriving DecidableEq

/-- The path cleaning of send_file: strip whitespace, then double quotes,
then single quotes. -/
def clean_file_path (p : String) : String :=
  pyStripChar (pyStripChar (pyStrip p) '"') '\''

/-- Embedding of send_file. -/
def send_file (p : String) (meta : FileMeta) : SendFileResult :=
  if clean_file_path p == "" then .errMissingPath
  else if !(meta.onDisk && meta.isFile) then .errNotFound
  else if MAX_TELEGRAM_UPLOAD_BYTES < meta.size then .errTooLarge
  else .sendOverNetwork

/-- Fifteen photo files as the scenario of the spec describes them. -/
def photoFiles15 : List FsEntry :=
  (List.range 15).map
    (fun i => { name := Nat.repr i, ext := ".jpg", mtime := i, isDir := false })

/-- The scenario item list: photo filter over the fifteen photo files,
recent sort. -/
def photoItems15 : List FsEntry := folderItems photoFiles15 "photo" "recent"

/-- An entry larger than the whole budget. -/
def bigEntry : ZipEntry :=
  { size := MAX_ZIP_SOURCE_BYTES + 1, statRaises := false, writeRaises := false }

/-- A small entry that fits the budget. -/
def smallEntry : ZipEntry := { size := 1000, statRaises := false, writeRaises := false }

/-- Metadata of a file above the upload ceiling. -/
def bigMeta : FileMeta :=
  { onDisk := true, isFile := true, size := MAX_TELEGRAM_UPLOAD_BYTES + 1 }

/-- Metadata of a file below the upload ceiling. -/
def smallMeta : FileMeta := { onDisk := true, isFile := true, size := 12345 }

/-! # Theorems -/

/-! ## Decimal numerals round trip -/

theorem natDigits_small {n : Nat} (h : n < 10) : natDigits n = [Nat.digitChar n] := by
  rw [natDigits, if_pos h]

theorem natDigits_large {n : Nat} (h : ¬ n < 10) :
    natDigits n = natDigits (n / 10) ++ [Nat.digitChar (n % 10)] := by
  rw [natDigits]
  exact if_neg h

theorem toDigitsCore_eq_natDigits :
    ∀ (f n : Nat) (acc : List Char), n < f →
      Nat.toDigitsCore 10 f n acc = natDigits n ++ acc := by
  intro f
  induction f with
  | zero => intro n acc h; omega
  | succ f ih =>
    intro n acc h
    simp only [Nat.toDigitsCore]
    by_cases h10 : n / 10 = 0
    · have hn10 : n < 10 := (Nat.div_eq_zero_iff (by omega)).1 h10
      rw [if_pos h10, natDigits_small hn10, Nat.mod_eq_of_lt hn10]
      simp
    · have hge : 10 ≤ n := by
        by_contra hc
        exact h10 ((Nat.div_eq_zero_iff (by omega)).2 (by omega))
      have hlt : n / 10 < f := by
        have h1 : n / 10 < n := Nat.div_lt_self (by omega) (by omega)
        omega
      rw [if_neg h10, ih (n / 10) (Nat.digitChar (n % 10) :: acc) hlt,
        @natDigits_large n (by omega)]
      simp

theorem natRepr_eq_natDigits (n : Nat) : Nat.repr n = (natDigits n).asString := by
  rw [Nat.repr, Nat.toDigits, toDigitsCore_eq_natDigits (n + 1) n [] (Nat.lt_succ_self n)]
  simp

theorem digitChar_toNat {d : Nat} (h : d < 10) : (Nat.digitChar d).toNat = 48 + d := by
  revert h
  revert d
  decide

theorem digitsVal_natDigits (n : Nat) : digitsVal (natDigits n) = n := by
  induction n using Nat.strong_induction_on with
  | _ n ih =>
    by_cases h : n < 10
    · rw [natDigits_small h]
      simp [digitsVal, digitChar_toNat h]
    · rw [natDigits_large h]
      have hdiv : n / 10 < n := Nat.div_lt_self (by omega) (by omega)
      have hmod : n % 10 < 10 := Nat.mod_lt n (by omega)
      have hih := ih (n / 10) hdiv
      have hdm := Nat.div_add_mod n 10
      simp only [digitsVal, List.foldl_append, List.foldl] at *
      rw [hih, digitChar_toNat hmod]
      omega

theorem natDigits_ne_nil (n : Nat) : natDigits n ≠ [] := by
  by_cases h : n < 10
  · rw [natDigits_small h]
    simp
  · rw [natDigits_large h]
    simp

theorem natRepr_injective {m n : Nat} (h : Nat.repr m = Nat.repr n) : m = n := by
  rw [natRepr_eq_natDigits, natRepr_eq_natDigits] at h
  have hd : natDigits m = natDigits n := by
    simpa [List.asString] using congrArg String.data h
  calc m = digitsVal (natDigits m) := (digitsVal_natDigits m).symm
    _ = digitsVal (natDigits n) := by rw [hd]
    _ = n := digitsVal_natDigits n

theorem natRepr_ne_empty (n : Nat) : Nat.repr n ≠ "" := by
  rw [natRepr_eq_natDigits]
  intro h
  have hd := congrArg String.data h
  simp [List.asString] at hd
  exact natDigits_ne_nil n hd

/-! ## Association list lookups -/

theorem lookup_mem {l : List (String × String)} {k v : String}
    (h : l.lookup k = some v) : (k, v) ∈ l := by
  induction l with
  | nil => simp at h
  | cons a as ih =>
    obtain ⟨k1, v1⟩ := a
    rw [List.lookup_cons] at h
    cases hb : (k == k1) with
    | true =>
      rw [hb] at h
      have h2 : some v1 = some v := h
      have hk : k = k1 := by simpa using hb
      cases h2
      rw [hk]
      exact List.mem_cons_self _ _
    | false =>
      rw [hb] at h
      have h2 : as.lookup k = some v := h
      exact List.mem_cons_of_mem _ (ih h2)

theorem lookup_cons_self {l : List (String × String)} {k v : String} :
    ((k, v) :: l).lookup k = some v := by
  rw [List.lookup_cons, beq_self_eq_true k]

theorem lookup_cons_ne {l : List (String × String)} {k k1 v1 : String} (h : k ≠ k1) :
    ((k1, v1) :: l).lookup k = l.lookup k := by
  rw [List.lookup_cons, beq_eq_false_iff_ne.mpr h]

theorem truthyLookup_some {m : List (String × String)} {k v : String}
    (h : truthyLookup m k = some v) : m.lookup k = some v ∧ v ≠ "" := by
  unfold truthyLookup at h
  cases hl : m.lookup k with
  | none => rw [hl] at h; exact absurd h (by simp)
  | some w =>
    rw [hl] at h
    have h2 : (if w = "" then none else some w) = some v := h
    by_cases hw : w = ""
    · rw [if_pos hw] at h2
      exact absurd h2 (by simp)
    · rw [if_neg hw] at h2
      have hwv : w = v := by injection h2
      subst hwv
      exact ⟨rfl, hw⟩

theorem truthyLookup_of_lookup {m : List (String × String)} {k v : String}
    (hl : m.lookup k = some v) (hv : v ≠ "") : truthyLookup m k = some v := by
  unfold truthyLookup
  rw [hl]
  exact if_neg hv

theorem truthyLookup_none {m : List (String × String)} {k : String}
    (h : truthyLookup m k = none) (hv : ∀ pr ∈ m, pr.2 ≠ "") :
    m.lookup k = none := by
  unfold truthyLookup at h
  cases hl : m.lookup k with
  | none => rfl
  | some w =>
    rw [hl] at h
    have h2 : (if w = "" then none else some w) = none := h
    have hw : w ≠ "" := hv (k, w) (lookup_mem hl)
    rw [if_neg hw] at h2
    exact absurd h2 (by simp)

/-! ## Path registry invariants -/

theorem register_path_fresh {s : ChatSession} {p : String}
    (ht : truthyLookup s.path_to_id p = none) :
    register_path s p =
      (Nat.repr s.next_id,
       { s with next_id := s.next_id + 1,
                id_to_path := (Nat.repr s.next_id, p) :: s.id_to_path,
                path_to_id := (p, Nat.repr s.next_id) :: s.path_to_id }) := by
  unfold register_path
  rw [ht]

theorem register_path_existing {s : ChatSession} {p v : String}
    (ht : truthyLookup s.path_to_id p = some v) :
    register_path s p = (v, s) := by
  unfold register_path
  rw [ht]

theorem regInv_preserved {s : ChatSession} (h : RegInv s) (p : String) :
    RegInv (regStep s p) := by
  obtain ⟨h1, h2, h3⟩ := h
  unfold regStep
  cases ht : truthyLookup s.path_to_id p with
  | some v =>
    rw [register_path_existing ht]
    exact ⟨h1, h2, h3⟩
  | none =>
    rw [register_path_fresh ht]
    refine ⟨?_, ?_, ?_⟩
    · intro pr hpr
      rcases List.mem_cons.1 hpr with hh | hh
      · refine ⟨s.next_id, ?_, by rw [hh]⟩
        show s.next_id < s.next_id + 1
        omega
      · obtain ⟨k, hk, hke⟩ := h1 pr hh
        refine ⟨k, ?_, hke⟩
        show k < s.next_id + 1
        omega
    · intro pr hpr
      rcases List.mem_cons.1 hpr with hh | hh
      · refine ⟨s.next_id, ?_, by rw [hh]⟩
        show s.next_id < s.next_id + 1
        omega
      · obtain ⟨k, hk, hke⟩ := h2 pr hh
        refine ⟨k, ?_, hke⟩
        show k < s.next_id + 1
        omega
    · intro pr qr hpr hqr heq
      rcases List.mem_cons.1 hpr with hh | hh <;> rcases List.mem_cons.1 hqr with hh2 | hh2
      · rw [hh, hh2]
      · obtain ⟨k, hk, hke⟩ := h1 qr hh2
        rw [hh] at heq
        rw [hke] at heq
        have hcontra : s.next_id = k := natRepr_injective heq
        omega
      · obtain ⟨k, hk, hke⟩ := h1 pr hh
        rw [hh2] at heq
        rw [hke] at heq
        have hcontra : k = s.next_id := natRepr_injective heq
        omega
      · exact h3 pr qr hh hh2 heq

theorem register_path_binds {s : ChatSession} (p : String) :
    ((register_path s p).2).path_to_id.lookup p = some (register_path s p).1
    ∧ (register_path s p).1 ≠ "" := by
  cases ht : truthyLookup s.path_to_id p with
  | some v =>
    rw [register_path_existing ht]
    exact ⟨(truthyLookup_some ht).1, (truthyLookup_some ht).2⟩
  | none =>
    rw [register_path_fresh ht]
    exact ⟨lookup_cons_self, natRepr_ne_empty s.next_id⟩

theorem register_path_keeps_lookup {s : ChatSession} {p v : String}
    (hl : s.path_to_id.lookup p = some v) (q : String) (hq : q ≠ p) :
    ((register_path s q).2).path_to_id.lookup p = some v := by
  cases ht : truthyLookup s.path_to_id q with
  | some w => rw [register_path_existing ht]; exact hl
  | none =>
    rw [register_path_fresh ht]
    show ((q, Nat.repr s.next_id) :: s.path_to_id).lookup p = some v
    rw [lookup_cons_ne (fun hc => hq hc.symm)]
    exact hl

theorem register_path_keeps_id_binding {s : ChatSession} (h : RegInv s)
    {sid pth : String} (hl : s.id_to_path.lookup sid = some pth) (q : String) :
    ((register_path s q).2).id_to_path.lookup sid = some pth := by
  cases ht : truthyLookup s.path_to_id q with
  | some w => rw [register_path_existing ht]; exact hl
  | none =>
    rw [register_path_fresh ht]
    show ((Nat.repr s.next_id, q) :: s.id_to_path).lookup sid = some pth
    obtain ⟨k, hk, hke⟩ := h.2.1 (sid, pth) (lookup_mem hl)
    have hke2 : sid = Nat.repr k := hke
    have hne : sid ≠ Nat.repr s.next_id := by
      rw [hke2]
      intro hc
      have hck : k = s.next_id := natRepr_injective hc
      omega
    rw [lookup_cons_ne hne]
    exact hl

theorem regStep_foldl_keeps_id_binding :
    ∀ (ps : List String) (s : ChatSession), RegInv s →
      ∀ {sid pth : String}, s.id_to_path.lookup sid = some pth →
        ((ps.foldl regStep s).id_to_path.lookup sid = some pth) := by
  intro ps
  induction ps with
  | nil => intro s _ sid pth hl; exact hl
  | cons q qs ih =>
    intro s h sid pth hl
    rw [List.foldl_cons]
    exact ih (regStep s q) (regInv_preserved h q)
      (register_path_keeps_id_binding h hl q)

/-- C1: within one conversation session satisfying the registry invariant,
registering the same resolved path twice returns the same short id,
registering two different resolved paths never returns the same short id,
and a short id bound to a path keeps that binding across any later
sequence of registrations. -/
theorem registry_ids_stable (s : ChatSession) (h : RegInv s) :
    (∀ p, (register_path (register_path s p).2 p).1 = (register_path s p).1)
  ∧ (∀ p q, p ≠ q → (register_path s p).1 ≠ (register_path (register_path s p).2 q).1)
  ∧ (∀ (sid pth : String) (ps : List String), s.id_to_path.lookup sid = some pth →
      (ps.foldl regStep s).id_to_path.lookup sid = some pth) := by
  refine ⟨?_, ?_, ?_⟩
  · intro p
    obtain ⟨hb, hne⟩ := register_path_binds (s := s) p
    rw [register_path_existing (truthyLookup_of_lookup hb hne)]
  · intro p q hpq heq
    have inv1 : RegInv (register_path s p).2 := regInv_preserved h p
    obtain ⟨hb1, hne1⟩ := register_path_binds (s := s) p
    obtain ⟨hb2, hne2⟩ := register_path_binds (s := (register_path s p).2) q
    have hp2 : ((register_path (register_path s p).2 q).2).path_to_id.lookup p
        = some (register_path s p).1 :=
      register_path_keeps_lookup hb1 q (fun hc => hpq hc.symm)
    have inv2 : RegInv (register_path (register_path s p).2 q).2 :=
      regInv_preserved inv1 q
    have hmem1 := lookup_mem hp2
    have hmem2 := lookup_mem hb2
    have : p = q := inv2.2.2 _ _ hmem1 hmem2 heq
    exact hpq this
  · intro sid pth ps hl
    exact regStep_foldl_keeps_id_binding ps s h hl

/-- Witness for C1 at a concrete fresh session and path. -/
theorem registry_ids_stable_witness :
    (register_path (register_path freshSession "/home/user/notes.txt").2 "/home/user/notes.txt").1
      = (register_path freshSession "/home/user/notes.txt").1 :=
  (registry_ids_stable freshSession
    (by refine ⟨?_, ?_, ?_⟩ <;> simp [freshSession])).1 "/home/user/notes.txt"

/-! ## Update transport loop lemmas -/

theorem processBatch_cons_ge {off uid : Nat} (rest : List Nat) (h : off ≤ uid) :
    processBatch off (uid :: rest) =
      ((processBatch (uid + 1) rest).1,
       PollEvent.persistCursor uid :: PollEvent.dispatch uid
         :: (processBatch (uid + 1) rest).2) := by
  simp only [processBatch]
  rw [if_pos h]

theorem processBatch_cons_lt {off uid : Nat} (rest : List Nat) (h : ¬ off ≤ uid) :
    processBatch off (uid :: rest) =
      ((processBatch off rest).1,
       PollEvent.dispatch uid :: (processBatch off rest).2) := by
  simp only [processBatch]
  rw [if_neg h]

theorem persistedIds_persist (i : Nat) (evs : List PollEvent) :
    persistedIds (PollEvent.persistCursor i :: evs) = i :: persistedIds evs := rfl

theorem persistedIds_dispatch (i : Nat) (evs : List PollEvent) :
    persistedIds (PollEvent.dispatch i :: evs) = persistedIds evs := rfl

theorem processBatch_dispatch_mem :
    ∀ (ids : List Nat) (off i : Nat), i ∈ ids →
      PollEvent.dispatch i ∈ (processBatch off ids).2 := by
  intro ids
  induction ids with
  | nil => intro off i h; simp at h
  | cons u rest ih =>
    intro off i h
    rcases List.mem_cons.1 h with rfl | hmem
    · by_cases hc : off ≤ i
      · rw [processBatch_cons_ge rest hc]; simp
      · rw [processBatch_cons_lt rest hc]; simp
    · by_cases hc : off ≤ u
      · rw [processBatch_cons_ge rest hc]
        simp only [List.mem_cons]
        right; right
        exact ih (u + 1) i hmem
      · rw [processBatch_cons_lt rest hc]
        simp only [List.mem_cons]
        right
        exact ih off i hmem

theorem processBatch_persist_bounds :
    ∀ (ids : List Nat) (off : Nat),
      List.Chain' (· < ·) (persistedIds (processBatch off ids).2)
      ∧ (∀ i ∈ persistedIds (processBatch off ids).2, off ≤ i) := by
  intro ids
  induction ids with
  | nil =>
    intro off
    refine ⟨?_, ?_⟩ <;> simp [processBatch, persistedIds]
  | cons u rest ih =>
    intro off
    by_cases hc : off ≤ u
    · rw [processBatch_cons_ge rest hc, persistedIds_persist, persistedIds_dispatch]
      obtain ⟨hch, hbd⟩ := ih (u + 1)
      refine ⟨?_, ?_⟩
      · rw [List.chain'_cons']
        refine ⟨?_, hch⟩
        intro b hb
        have hmem : b ∈ persistedIds (processBatch (u + 1) rest).2 :=
          List.mem_of_mem_head? hb
        have := hbd b hmem
        omega
      · intro i hi
        rcases List.mem_cons.1 hi with rfl | hmem
        · exact hc
        · have := hbd i hmem
          omega
    · rw [processBatch_cons_lt rest hc, persistedIds_dispatch]
      exact ih off

theorem processBatch_offset_mono :
    ∀ (ids : List Nat) (off : Nat), off ≤ (processBatch off ids).1 := by
  intro ids
  induction ids with
  | nil => intro off; simp [processBatch]
  | cons u rest ih =>
    intro off
    by_cases hc : off ≤ u
    · rw [processBatch_cons_ge rest hc]
      have := ih (u + 1)
      simp only
      omega
    · rw [processBatch_cons_lt rest hc]
      exact ih off

theorem processBatch_persist_then_dispatch :
    ∀ (ids : List Nat) (off n i : Nat),
      (processBatch off ids).2.get? n = some (PollEvent.persistCursor i) →
      (processBatch off ids).2.get? (n + 1) = some (PollEvent.dispatch i) := by
  intro ids
  induction ids with
  | nil => intro off n i h; simp [processBatch] at h
  | cons u rest ih =>
    intro off n i h
    by_cases hc : off ≤ u
    · rw [processBatch_cons_ge rest hc] at h ⊢
      match n with
      | 0 =>
        simp only [List.get?_cons_zero, Option.some.injEq] at h
        injection h with hui
        subst hui
        simp
      | 1 => simp at h
      | n + 2 =>
        simp only [List.get?_cons_succ] at h ⊢
        exact ih (u + 1) n i h
    · rw [processBatch_cons_lt rest hc] at h ⊢
      match n with
      | 0 => simp at h
      | n + 1 =>
        simp only [List.get?_cons_succ] at h ⊢
        exact ih off n i h

/-- C2 (amended): in the batch loop, an update at or past the current
cursor has the cursor advance persisted immediately before its own
dispatch, the persisted cursor values are strictly increasing and never
drop below the starting offset (so the cursor never decreases, also when a
restart resumes from the reloaded cursor plus one), the returned offset
never decreases, and every update of the batch is dispatched to the
handler, including one whose id is below the cursor: a stale update skips
only the cursor advance, it is not ignored. -/
theorem poll_cursor_discipline (off : Nat) (ids : List Nat) :
    (∀ n i, (processBatch off ids).2.get? n = some (PollEvent.persistCursor i) →
        (processBatch off ids).2.get? (n + 1) = some (PollEvent.dispatch i))
  ∧ List.Chain' (· < ·) (persistedIds (processBatch off ids).2)
  ∧ (∀ i ∈ persistedIds (processBatch off ids).2, off ≤ i)
  ∧ (∀ i ∈ ids, PollEvent.dispatch i ∈ (processBatch off ids).2)
  ∧ off ≤ (processBatch off ids).1 :=
  ⟨fun n i h => processBatch_persist_then_dispatch ids off n i h,
   (processBatch_persist_bounds ids off).1,
   (processBatch_persist_bounds ids off).2,
   fun i h => processBatch_dispatch_mem ids off i h,
   processBatch_offset_mono ids off⟩

/-- Witness for C2 at a concrete batch. -/
theorem poll_cursor_discipline_witness :
    (processBatch 3 [7]).2.get? 1 = some (PollEvent.dispatch 7)
  ∧ PollEvent.dispatch 2 ∈ (processBatch 3 [7, 2]).2 :=
  ⟨(poll_cursor_discipline 3 [7]).1 0 7 (by decide),
   (poll_cursor_discipline 3 [7, 2]).2.2.2.1 2 (by decide)⟩

/-- C2 counterexample: with the cursor at 10, the update with id 5 is not
ignored without side effects: the loop does not move the cursor but still
dispatches the update to its handler. -/
theorem stale_update_still_dispatched :
    (processBatch 10 [5]).2 = [PollEvent.dispatch 5]
  ∧ PollEvent.dispatch 5 ∈ (processBatch 10 [5]).2 := by
  decide

/-- C6 (amended): an absent state record loads as cursor 0 with the
configured default conversation id as primary; the poll loop therefore
starts at offset 0 + 1 = 1, and at that offset every pending update in the
fetched batch is dispatched, so outstanding updates are processed from the
oldest pending one onward rather than skipped in favour of the newest. -/
theorem absent_state_startup (d : String) :
    load_state d StateFile.absent = ⟨0, d⟩
  ∧ (load_state d StateFile.absent).last_update_id.toNat + 1 = 1
  ∧ (∀ (ids : List Nat) (i : Nat), i ∈ ids →
      PollEvent.dispatch i ∈
        (processBatch ((load_state d StateFile.absent).last_update_id.toNat + 1) ids).2) := by
  refine ⟨rfl, rfl, ?_⟩
  intro ids i h
  exact processBatch_dispatch_mem ids _ i h

/-- Witness for C6 at a concrete pending update. -/
theorem absent_state_startup_witness :
    PollEvent.dispatch 41 ∈
      (processBatch ((load_state "" StateFile.absent).last_update_id.toNat + 1) [41]).2 :=
  (absent_state_startup "").2.2 [41] 41 (by decide)

/-- C6 counterexample: with the state record absent, a previously pending
update with id 100 is fetched at offset 1 and dispatched, contradicting
the reading that the bridge starts from the newest update with no
previously pending update processed. -/
theorem absent_state_processes_pending :
    PollEvent.dispatch 100 ∈
      (processBatch ((load_state "" StateFile.absent).last_update_id.toNat + 1) [100]).2 := by
  decide

/-- C10: loading durable state is total: an absent, unreadable, invalid
JSON or non-object state file yields the record with integer cursor 0 and
the configured default conversation id, and for every file content either
the body succeeds and its record is returned, or the raised error is
caught and the same default record is returned, so the loader never raises
to its caller. -/
theorem load_state_total (d : String) :
    (∀ f : StateFile,
        f = StateFile.absent ∨ f = StateFile.unreadable ∨ f = StateFile.invalidJson
          ∨ f = StateFile.jsonNonObject →
        load_state d f = ⟨0, d⟩)
  ∧ (∀ f : StateFile,
        (∃ s, load_state_attempt d f = Except.ok s ∧ load_state d f = s)
        ∨ load_state d f = ⟨0, d⟩) := by
  refine ⟨?_, ?_⟩
  · intro f h
    rcases h with rfl | rfl | rfl | rfl <;> rfl
  · intro f
    cases hf : load_state_attempt d f with
    | ok s =>
      left
      refine ⟨s, rfl, ?_⟩
      unfold load_state
      rw [hf]
    | error e =>
      right
      unfold load_state
      rw [hf]

/-- Witness for C10 at a concrete default id and an invalid JSON file. -/
theorem load_state_total_witness :
    load_state "chat42" StateFile.invalidJson = ⟨0, "chat42"⟩ :=
  (load_state_total "chat42").1 StateFile.invalidJson
    (Or.inr (Or.inr (Or.inl rfl)))

/-! ## Bulk transfer lemmas -/

theorem zip_step_stat {j : ZipJob} {e : ZipEntry} (h : e.statRaises = true) :
    zip_step j e = { j with skipped_count := j.skipped_count + 1 } := by
  unfold zip_step
  rw [if_pos h]

theorem zip_step_over {j : ZipJob} {e : ZipEntry} (h1 : e.statRaises = false)
    (h2 : MAX_ZIP_SOURCE_BYTES < j.source_bytes + e.size) :
    zip_step j e = { j with skipped_count := j.skipped_count + 1 } := by
  unfold zip_step
  rw [if_neg (by simp [h1]), if_pos h2]

theorem zip_step_write {j : ZipJob} {e : ZipEntry} (h1 : e.statRaises = false)
    (h2 : ¬ MAX_ZIP_SOURCE_BYTES < j.source_bytes + e.size)
    (h3 : e.writeRaises = true) :
    zip_step j e = { j with skipped_count := j.skipped_count + 1 } := by
  unfold zip_step
  rw [if_neg (by simp [h1]), if_neg h2, if_pos h3]

theorem zip_step_accept {j : ZipJob} {e : ZipEntry} (h1 : e.statRaises = false)
    (h2 : ¬ MAX_ZIP_SOURCE_BYTES < j.source_bytes + e.size)
    (h3 : e.writeRaises = false) :
    zip_step j e = { j with archived := j.archived ++ [e],
                            file_count := j.file_count + 1,
                            source_bytes := j.source_bytes + e.size } := by
  unfold zip_step
  rw [if_neg (by simp [h1]), if_neg h2, if_neg (by simp [h3])]

theorem zip_step_source_le {j : ZipJob} (h : j.source_bytes ≤ MAX_ZIP_SOURCE_BYTES)
    (e : ZipEntry) : (zip_step j e).source_bytes ≤ MAX_ZIP_SOURCE_BYTES := by
  by_cases h1 : e.statRaises = true
  · rw [zip_step_stat h1]; exact h
  · have h1f : e.statRaises = false := by simpa using h1
    by_cases h2 : MAX_ZIP_SOURCE_BYTES < j.source_bytes + e.size
    · rw [zip_step_over h1f h2]; exact h
    · by_cases h3 : e.writeRaises = true
      · rw [zip_step_write h1f h2 h3]; exact h
      · rw [zip_step_accept h1f h2 (by simpa using h3)]
        show j.source_bytes + e.size ≤ MAX_ZIP_SOURCE_BYTES
        omega

theorem zip_step_sum {j : ZipJob} (h : j.source_bytes = sumSizes j.archived)
    (e : ZipEntry) : (zip_step j e).source_bytes = sumSizes (zip_step j e).archived := by
  by_cases h1 : e.statRaises = true
  · rw [zip_step_stat h1]; exact h
  · have h1f : e.statRaises = false := by simpa using h1
    by_cases h2 : MAX_ZIP_SOURCE_BYTES < j.source_bytes + e.size
    · rw [zip_step_over h1f h2]; exact h
    · by_cases h3 : e.writeRaises = true
      · rw [zip_step_write h1f h2 h3]; exact h
      · rw [zip_step_accept h1f h2 (by simpa using h3)]
        show j.source_bytes + e.size = sumSizes (j.archived ++ [e])
        simp [sumSizes, h]

theorem zip_foldl_budget :
    ∀ (es : List ZipEntry) (j : ZipJob), j.source_bytes ≤ MAX_ZIP_SOURCE_BYTES →
      (es.foldl zip_step j).source_bytes ≤ MAX_ZIP_SOURCE_BYTES := by
  intro es
  induction es with
  | nil => intro j h; exact h
  | cons e rest ih =>
    intro j h
    rw [List.foldl_cons]
    exact ih (zip_step j e) (zip_step_source_le h e)

theorem zip_foldl_sum :
    ∀ (es : List ZipEntry) (j : ZipJob), j.source_bytes = sumSizes j.archived →
      (es.foldl zip_step j).source_bytes = sumSizes ((es.foldl zip_step j).archived) := by
  intro es
  induction es with
  | nil => intro j h; exact h
  | cons e rest ih =>
    intro j h
    rw [List.foldl_cons]
    exact ih (zip_step j e) (zip_step_sum h e)

/-- C4: in a transfer job, the cumulative accepted source bytes never
exceed the fixed budget, equal at all times the total size of the archived
entries, and an entry whose size would push the running total over the
budget only advances the skipped counter, leaving the archive without it:
the entry is excluded whole, never truncated. -/
theorem zip_budget_respected (entries : List ZipEntry) :
    (zip_folder entries).source_bytes ≤ MAX_ZIP_SOURCE_BYTES
  ∧ (zip_folder entries).source_bytes = sumSizes (zip_folder entries).archived
  ∧ (∀ (j : ZipJob) (e : ZipEntry), e.statRaises = false →
        MAX_ZIP_SOURCE_BYTES < j.source_bytes + e.size →
        zip_step j e = { j with skipped_count := j.skipped_count + 1 }) :=
  ⟨zip_foldl_budget entries zipInit (by simp [zipInit]),
   zip_foldl_sum entries zipInit (by simp [zipInit, sumSizes]),
   fun _ e h1 h2 => zip_step_over h1 h2⟩


/-- Witness for C4 at a concrete oversized entry. -/
theorem zip_budget_respected_witness :
    zip_step zipInit bigEntry = { zipInit with skipped_count := zipInit.skipped_count + 1 }
  ∧ (zip_folder [bigEntry]).source_bytes ≤ MAX_ZIP_SOURCE_BYTES :=
  ⟨(zip_budget_respected []).2.2 zipInit bigEntry rfl (by decide),
   (zip_budget_respected [bigEntry]).1⟩

/-- C8: the skipped counter also counts entries whose metadata read or
archive write raises, a budget overflow does not end the walk (the fold
continues on the rest with only the skipped counter advanced), and a later
entry that fits the remaining budget without raising is archived. -/
theorem zip_skip_accounting (j : ZipJob) (e e2 : ZipEntry) (rest : List ZipEntry) :
    (e.statRaises = true → zip_step j e = { j with skipped_count := j.skipped_count + 1 })
  ∧ (e.statRaises = false → ¬ MAX_ZIP_SOURCE_BYTES < j.source_bytes + e.size →
        e.writeRaises = true →
        zip_step j e = { j with skipped_count := j.skipped_count + 1 })
  ∧ (e.statRaises = false → MAX_ZIP_SOURCE_BYTES < j.source_bytes + e.size →
        List.foldl zip_step j (e :: rest) =
          List.foldl zip_step { j with skipped_count := j.skipped_count + 1 } rest)
  ∧ (e2.statRaises = false → e2.writeRaises = false →
        ¬ MAX_ZIP_SOURCE_BYTES < j.source_bytes + e2.size →
        e2 ∈ (zip_step j e2).archived) := by
  refine ⟨fun h1 => zip_step_stat h1,
    fun h1 h2 h3 => zip_step_write h1 h2 h3,
    fun h1 h2 => ?_,
    fun h1 h3 h2 => ?_⟩
  · rw [List.foldl_cons, zip_step_over h1 h2]
  · rw [zip_step_accept h1 h2 h3]
    show e2 ∈ j.archived ++ [e2]
    simp

/-- Witness for C8: a file above the whole budget is skipped, the walk
continues, and the following small file is archived. -/
theorem zip_skip_accounting_witness :
    List.foldl zip_step zipInit [bigEntry, smallEntry] =
      List.foldl zip_step { zipInit with skipped_count := zipInit.skipped_count + 1 }
        [smallEntry]
  ∧ smallEntry ∈
      (zip_step { zipInit with skipped_count := zipInit.skipped_count + 1 } smallEntry).archived :=
  ⟨(zip_skip_accounting zipInit bigEntry smallEntry [smallEntry]).2.2.1 rfl (by decide),
   (zip_skip_accounting { zipInit with skipped_count := zipInit.skipped_count + 1 }
      bigEntry smallEntry []).2.2.2 rfl rfl (by decide)⟩

/-! ## Pagination lemmas -/

theorem total_pages_of_eq (n : Nat) : total_pages_of n = max 1 ((n + 11) / 12) := by
  unfold total_pages_of
  rw [Int.fdiv_eq_ediv _ (by omega)]
  omega

theorem total_pages_of_pos (n : Nat) : 1 ≤ total_pages_of n := by
  rw [total_pages_of_eq]
  omega


/-- C3: the page count is max(1, ceil(N/12)) for N surviving items; a
requested page at or past the page count clamps to the last page and a
negative request clamps to page 0; Prev is rendered exactly when the
displayed page is positive, Next exactly when a later page exists; the
displayed rows are the 12-slice of the item list; and on a folder of 15
photo files under the photo filter, page 0 shows 12 rows with only Next
while page 1 shows 3 rows with only Prev. -/
theorem pagination_clamping (items : List FsEntry) (req : Int) :
    ((browser_keyboard items req).totalPages = max 1 ((items.length + 11) / 12))
  ∧ (((browser_keyboard items req).totalPages : Int) ≤ req →
      (browser_keyboard items req).page = (browser_keyboard items req).totalPages - 1)
  ∧ (req < 0 → (browser_keyboard items req).page = 0)
  ∧ ((browser_keyboard items req).hasPrev = true ↔ 0 < (browser_keyboard items req).page)
  ∧ ((browser_keyboard items req).hasNext = true ↔
      (browser_keyboard items req).page + 1 < (browser_keyboard items req).totalPages)
  ∧ (browser_keyboard items req).page < (browser_keyboard items req).totalPages
  ∧ (browser_keyboard items req).childRows.length
      = min 12 (items.length - (browser_keyboard items req).page * 12)
  ∧ (photoItems15.length = 15
      ∧ (browser_keyboard photoItems15 0).childRows.length = 12
      ∧ (browser_keyboard photoItems15 0).hasNext = true
      ∧ (browser_keyboard photoItems15 0).hasPrev = false
      ∧ (browser_keyboard photoItems15 1).childRows.length = 3
      ∧ (browser_keyboard photoItems15 1).hasPrev = true
      ∧ (browser_keyboard photoItems15 1).hasNext = false) := by
  have hpage : (browser_keyboard items req).page
      = clamped_page req (total_pages_of items.length) := rfl
  have htp : (browser_keyboard items req).totalPages = total_pages_of items.length := rfl
  have hpos := total_pages_of_pos items.length
  refine ⟨?_, ?_, ?_, ?_, ?_, ?_, ?_, ?_⟩
  · rw [htp]
    exact total_pages_of_eq items.length
  · intro h
    rw [htp] at h
    rw [hpage, htp]
    unfold clamped_page
    rw [if_pos (by omega)]
  · intro h
    rw [hpage]
    unfold clamped_page
    rw [if_neg (by omega)]
    omega
  · show decide (0 < (browser_keyboard items req).page) = true ↔ _
    exact decide_eq_true_iff
  · show decide ((browser_keyboard items req).page < total_pages_of items.length - 1) = true ↔ _
    rw [decide_eq_true_iff, htp]
    omega
  · rw [hpage, htp]
    unfold clamped_page
    split
    · omega
    · omega
  · show ((items.drop ((browser_keyboard items req).page * 12)).take 12).length
        = min 12 (items.length - (browser_keyboard items req).page * 12)
    simp [List.length_take, List.length_drop]
  · decide

/-- Witness for C3 at a concrete listing and an out-of-range request. -/
theorem pagination_clamping_witness :
    (browser_keyboard photoItems15 99).page = (browser_keyboard photoItems15 99).totalPages - 1
  ∧ (browser_keyboard photoItems15 (-3)).page = 0 :=
  ⟨(pagination_clamping photoItems15 99).2.1 (by decide),
   (pagination_clamping photoItems15 (-3)).2.2.1 (by decide)⟩

/-- C7: a direct single file send of an existing regular file above the
upload ceiling returns the size error to the caller and never reaches the
network sending branch, while a file within the ceiling proceeds to the
network send. -/
theorem send_file_preflight (p : String) (meta : FileMeta) :
    (MAX_TELEGRAM_UPLOAD_BYTES < meta.size →
        send_file p meta ≠ SendFileResult.sendOverNetwork)
  ∧ (clean_file_path p ≠ "" → meta.onDisk = true → meta.isFile = true →
        (MAX_TELEGRAM_UPLOAD_BYTES < meta.size →
            send_file p meta = SendFileResult.errTooLarge)
      ∧ (meta.size ≤ MAX_TELEGRAM_UPLOAD_BYTES →
            send_file p meta = SendFileResult.sendOverNetwork)) := by
  unfold send_file
  by_cases h0 : (clean_file_path p == "") = true
  · rw [if_pos h0]
    refine ⟨fun _ => by simp, ?_⟩
    intro hne
    exact absurd (by simpa using h0) hne
  · rw [if_neg h0]
    by_cases h1 : (!(meta.onDisk && meta.isFile)) = true
    · rw [if_pos h1]
      refine ⟨fun _ => by simp, ?_⟩
      intro _ hd hf
      rw [hd, hf] at h1
      simp at h1
    · rw [if_neg h1]
      by_cases h2 : MAX_TELEGRAM_UPLOAD_BYTES < meta.size
      · rw [if_pos h2]
        exact ⟨fun _ => by simp,
          fun _ _ _ => ⟨fun _ => rfl, fun hle => absurd h2 (by omega)⟩⟩
      · rw [if_neg h2]
        exact ⟨fun hsz => absurd hsz h2,
          fun _ _ _ => ⟨fun hsz => absurd hsz h2, fun _ => rfl⟩⟩


/-- Witness for C7 at concrete oversized and small files. -/
theorem send_file_preflight_witness :
    send_file "/tmp/big.bin" bigMeta = SendFileResult.errTooLarge
  ∧ send_file "/tmp/small.bin" smallMeta = SendFileResult.sendOverNetwork :=
  ⟨((send_file_preflight "/tmp/big.bin" bigMeta).2 (by decide) rfl rfl).1 (by decide),
   ((send_file_preflight "/tmp/small.bin" smallMeta).2 (by decide) rfl rfl).2 (by decide)⟩

/-- C5 (amended): for every oracle, the inbound text browse photo matches
the natural language browse branch: the filter preference is set to photo,
the sort preference is set to name (the branch picks recent only when the
text mentions recent or latest, which browse photo does not), and the
reply is the root folder keyboard. -/
theorem browse_photo_routes (fs : FsOracle) :
    handle_telegram_text fs "browse photo" =
      { setFilter := some "photo", setSort := some "name",
        reply := Reply.browserRoots } := by
  rfl

/-- C5 counterexample: the conversation text browse photo sets the sort
preference to name, so the claim that the sort preference stays or resets
to recent fails on this input. -/
theorem browse_photo_sort_not_recent :
    (handle_telegram_text noFs "browse photo").setSort = some "name"
  ∧ (handle_telegram_text noFs "browse photo").setSort ≠ some "recent" := by
  decide

/-! ## Filter domain lemmas -/


theorem parse_file_filter_mem (t : String) : parse_file_filter t ∈ PARSER_FILTERS := by
  unfold parse_file_filter
  dsimp only
  repeat' split
  all_goals decide






theorem parser_filters_subset :
    ∀ x ∈ PARSER_FILTERS, x ∈ ALLOWED_FILTERS := by
  decide

theorem normalize_flt_value_mem (v : String) : normalize_flt_value v ∈ ALLOWED_FILTERS := by
  unfold normalize_flt_value
  split
  · next h => simpa using h
  · decide

theorem normalize_flt_value_unknown {v : String} (h : v ∉ ALLOWED_FILTERS) :
    normalize_flt_value v = "all" := by
  unfold normalize_flt_value
  rw [if_neg (by simpa using h)]

theorem router_setFilter_cases (fs : FsOracle) (t : String) :
    (handle_telegram_text fs t).setFilter = none
  ∨ (handle_telegram_text fs t).setFilter
      = some (parse_file_filter (pyStrip (strDrop (pyStrip t) 8)))
  ∨ (handle_telegram_text fs t).setFilter = some (parse_file_filter (pyStrip t)) := by
  suffices h : ∀ r : RouterResult, handle_telegram_text fs t = r →
      (r.setFilter = none
        ∨ r.setFilter = some (parse_file_filter (pyStrip (strDrop (pyStrip t) 8)))
        ∨ r.setFilter = some (parse_file_filter (pyStrip t))) by
    exact h _ rfl
  intro r hr
  unfold handle_telegram_text replyOnly at hr
  lift_lets at hr
  extract_lets raw lower at hr
  by_cases hc0 : strStartsWith lower "/browse " = true
  · rw [if_pos hc0] at hr
    rw [← hr]
    right; left; rfl
  rw [if_neg hc0] at hr
  by_cases hc1 : (anyKey lower ["browse", "list files", "show files", "file browser"] && anyKey lower ["photo", "video", "code", "text", "pdf", "audio", "doc"]) = true
  · rw [if_pos hc1] at hr
    rw [← hr]
    right; right; rfl
  rw [if_neg hc1] at hr
  by_cases hc2 : (["browse", "browse files", "file browser", "list files", "list folders", "show files", "/browse"] : List String).contains lower = true
  · rw [if_pos hc2] at hr
    rw [← hr]
    right; right; rfl
  rw [if_neg hc2] at hr
  by_cases hc3 : (["send screenshot", "take screenshot", "send screen", "send current screen"] : List String).contains lower = true
  · rw [if_pos hc3] at hr
    rw [← hr]
    left; rfl
  rw [if_neg hc3] at hr
  by_cases hc4 : (strStartsWith lower "send me screenshot" || strStartsWith lower "send screenshot of") = true
  · rw [if_pos hc4] at hr
    rw [← hr]
    left; rfl
  rw [if_neg hc4] at hr
  by_cases hc5 : ((strStartsWith lower "send voice " || strStartsWith lower "reply in voice ") && !(pyStrip (afterSecondSpace raw) == "")) = true
  · rw [if_pos hc5] at hr
    rw [← hr]
    left; rfl
  rw [if_neg hc5] at hr
  by_cases hc6 : strStartsWith lower "send file " = true
  · rw [if_pos hc6] at hr
    rw [← hr]
    left; rfl
  rw [if_neg hc6] at hr
  by_cases hc7 : strStartsWith lower "send me file " = true
  · rw [if_pos hc7] at hr
    rw [← hr]
    left; rfl
  rw [if_neg hc7] at hr
  by_cases hc8 : strStartsWith lower "send folder " = true
  · rw [if_pos hc8] at hr
    rw [← hr]
    left; rfl
  rw [if_neg hc8] at hr
  by_cases hc9 : strStartsWith lower "send me folder " = true
  · rw [if_pos hc9] at hr
    rw [← hr]
    left; rfl
  rw [if_neg hc9] at hr
  by_cases hc10 : ((strStartsWith lower "send me " || strStartsWith lower "send ") && (sendMeResolve fs raw lower).isSome) = true
  · rw [if_pos hc10] at hr
    rw [← hr]
    left; rfl
  rw [if_neg hc10] at hr
  by_cases hc11 : (lower == "/start") = true
  · rw [if_pos hc11] at hr
    rw [← hr]
    left; rfl
  rw [if_neg hc11] at hr
  by_cases hc12 : (lower == "/help") = true
  · rw [if_pos hc12] at hr
    rw [← hr]
    left; rfl
  rw [if_neg hc12] at hr
  by_cases hc13 : strStartsWith lower "/screenshot" = true
  · rw [if_pos hc13] at hr
    rw [← hr]
    left; rfl
  rw [if_neg hc13] at hr
  by_cases hc14 : strStartsWith lower "/sendfile " = true
  · rw [if_pos hc14] at hr
    rw [← hr]
    left; rfl
  rw [if_neg hc14] at hr
  by_cases hc15 : strStartsWith lower "/sendfolder " = true
  · rw [if_pos hc15] at hr
    rw [← hr]
    left; rfl
  rw [if_neg hc15] at hr
  by_cases hc16 : strStartsWith lower "/voice " = true
  · rw [if_pos hc16] at hr
    rw [← hr]
    left; rfl
  rw [if_neg hc16] at hr
  rw [← hr]
  left
  rfl

theorem applyFilterEvent_mem (fs : FsOracle) {filt : String}
    (h : filt ∈ ALLOWED_FILTERS) (e : SessionEvent) :
    applyFilterEvent fs filt e ∈ ALLOWED_FILTERS := by
  cases e with
  | inboundText t =>
    show (match (handle_telegram_text fs t).setFilter with
          | some f => f
          | none => filt) ∈ ALLOWED_FILTERS
    rcases router_setFilter_cases fs t with hn | hu | hu
    · rw [hn]
      exact h
    · rw [hu]
      exact parser_filters_subset _ (parse_file_filter_mem _)
    · rw [hu]
      exact parser_filters_subset _ (parse_file_filter_mem _)
  | fltCallback v => exact normalize_flt_value_mem v
  | sortCallback v => exact h

theorem sessionFilter_foldl_mem (fs : FsOracle) :
    ∀ (events : List SessionEvent) (filt : String), filt ∈ ALLOWED_FILTERS →
      events.foldl (applyFilterEvent fs) filt ∈ ALLOWED_FILTERS := by
  intro events
  induction events with
  | nil => intro filt h; exact h
  | cons e rest ih =>
    intro filt h
    rw [List.foldl_cons]
    exact ih (applyFilterEvent fs filt e) (applyFilterEvent_mem fs h e)

/-- C9: the natural language parser only ever returns one of the eight
filter values without other; a flt callback value outside the nine
documented values is coerced to all instead of stored verbatim; and after
every sequence of inbound texts, flt callbacks and sort callbacks the
stored filter preference is one of the nine documented values. -/
theorem filter_domain_invariant (fs : FsOracle) :
    (∀ t, parse_file_filter t ∈ PARSER_FILTERS)
  ∧ (∀ v, v ∉ ALLOWED_FILTERS → normalize_flt_value v = "all")
  ∧ (∀ events, sessionFilterAfter fs events ∈ ALLOWED_FILTERS) :=
  ⟨parse_file_filter_mem,
   fun _ h => normalize_flt_value_unknown h,
   fun events => sessionFilter_foldl_mem fs events "all" (by decide)⟩

/-- Witness for C9 at an unknown callback value and a concrete event
sequence. -/
theorem filter_domain_invariant_witness :
    normalize_flt_value "bogus" = "all"
  ∧ sessionFilterAfter noFs
      [SessionEvent.fltCallback "bogus", SessionEvent.inboundText "browse photo"]
      ∈ ALLOWED_FILTERS :=
  ⟨(filter_domain_invariant noFs).2.1 "bogus" (by decide),
   (filter_domain_invariant noFs).2.2
     [SessionEvent.fltCallback "bogus", SessionEvent.inboundText "browse photo"]⟩
